import Mathlib

/-!
Verification of the audio decode / encode / playback-transport core of the
Gemini-TTS-voice repository (src/App.tsx, src/services/geminiService.ts,
constants).  PCM samples are modelled as exact rationals: every finite
IEEE float is a rational, and the arithmetic the encoder performs on the
samples that actually occur (k/32768 with k a 16-bit code, scaled by the
powers-of-two / small-integer factors below) is exact in floating point,
so the rational semantics coincides with the JavaScript one there.
-/

namespace GeminiTTS

/-- constants.ts: `export const TTS_SAMPLE_RATE = 24000`. -/
def TTS_SAMPLE_RATE : Nat := 24000

/-- constants.ts: `export const TTS_CHANNEL_COUNT = 1`. -/
def TTS_CHANNEL_COUNT : Nat := 1

/-- Model of a Web Audio `AudioBuffer`: channel count, sample rate, and one
list of (float, modelled as rational) samples per channel. -/
structure AudioBuffer where
  numberOfChannels : Nat
  sampleRate : Nat
  channelData : List (List ℚ)
deriving DecidableEq

/-- `buffer.getChannelData(0)` (App.tsx line 45). -/
def channel0 (b : AudioBuffer) : List ℚ := b.channelData.headD []

instance {ε α : Type} [DecidableEq ε] [DecidableEq α] :
    DecidableEq (Except ε α) := fun x y =>
  match x, y with
  | .ok a, .ok b =>
      if h : a = b then isTrue (h ▸ rfl) else isFalse fun hc => h (Except.ok.inj hc)
  | .error a, .error b =>
      if h : a = b then isTrue (h ▸ rfl) else isFalse fun hc => h (Except.error.inj hc)
  | .ok _, .error _ => isFalse fun hc => Except.noConfusion hc
  | .error _, .ok _ => isFalse fun hc => Except.noConfusion hc

/-- Two consecutive bytes, least-significant first, read as a signed 16-bit
integer (one element of `new Int16Array(data.buffer)`, App.tsx line 25). -/
def int16OfBytes (lo hi : Nat) : Int :=
  let u : Nat := lo % 256 + 256 * (hi % 256)
  if u < 32768 then (u : Int) else (u : Int) - 65536

/-- `new Int16Array(data.buffer)` (App.tsx line 25) viewed as a list:
element `n` is bytes `2n, 2n+1` of the underlying buffer, LSB first.
Only meaningful when the byte length is even (otherwise the constructor
throws, see `decodeAudioData`). -/
def int16ArrayOfBytes (data : List Nat) : List Int :=
  (List.range (data.length / 2)).map fun n =>
    int16OfBytes (data.getD (2 * n) 0) (data.getD (2 * n + 1) 0)

/-- Message of the `RangeError` thrown by `new Int16Array(data.buffer)`
when the buffer's byte length is odd. -/
def int16ByteLengthError : String :=
  "RangeError: byte length of Int16Array should be a multiple of 2"

/-- Message of the `NotSupportedError` thrown by
`ctx.createBuffer(numChannels, frameCount, sampleRate)` when the frame
count is zero (Web Audio `createBuffer` rejects a zero length). -/
def createBufferLengthError : String :=
  "NotSupportedError: AudioContext.createBuffer: length 0 is not allowed"

/-- App.tsx lines 19-36, `decodeAudioData`: interpret raw bytes as
little-endian signed 16-bit interleaved PCM, normalise by dividing by
32768.0, and build one channel list per channel.  Failure cases are the
exceptions the JavaScript code can raise: an odd byte length makes the
`Int16Array` constructor throw, and a zero frame count makes
`ctx.createBuffer` throw.  `frameCount` is `dataInt16.length / numChannels`
truncated to an integer, which is what `createBuffer` receives; the write
loop only lands inside the buffer for indices below that count. -/
def decodeAudioData (data : List Nat) (sampleRate numChannels : Nat) :
    Except String AudioBuffer :=
  if data.length % 2 ≠ 0 then
    .error int16ByteLengthError
  else
    let dataInt16 := int16ArrayOfBytes data
    let frameCount := dataInt16.length / numChannels
    if frameCount = 0 then
      .error createBufferLengthError
    else
      .ok { numberOfChannels := numChannels
            sampleRate := sampleRate
            channelData :=
              (List.range numChannels).map fun channel =>
                (List.range frameCount).map fun i =>
                  ((dataInt16.getD (i * numChannels + channel) 0 : Int) : ℚ) / 32768 }

/-- Truncation toward zero, the rounding JavaScript applies when a number
is stored into an `Int16Array`. -/
def ratTrunc (q : ℚ) : Int := if q < 0 then ⌈q⌉ else ⌊q⌋

/-- Wrap-around of a stored integer to signed 16-bit range, the modular
part of the JavaScript `ToInt16` conversion. -/
def toInt16wrap (v : Int) : Int := (v + 32768) % 65536 - 32768

/-- App.tsx line 48: `const s = Math.max(-1, Math.min(1, x));`. -/
def jsClamp (x : ℚ) : ℚ := max (-1 : ℚ) (min 1 x)

/-- App.tsx line 49: `s < 0 ? s * 0x8000 : s * 0x7FFF`. -/
def jsScale (s : ℚ) : ℚ := if s < 0 then s * 32768 else s * 32767

/-- App.tsx lines 48-49: one sample of the encoder's `pcmData` array:
clamp, scale, then the `Int16Array` store conversion (truncate toward
zero and wrap to 16 bits). -/
def floatToInt16 (x : ℚ) : Int :=
  toInt16wrap (ratTrunc (jsScale (jsClamp x)))

/-- `view.setUint16(offset, v, true)`: two little-endian bytes of
`v mod 2^16`. -/
def u16le (v : Nat) : List Nat := [v % 256, v / 256 % 256]

/-- `view.setUint32(offset, v, true)`: four little-endian bytes of
`v mod 2^32`. -/
def u32le (v : Nat) : List Nat :=
  [v % 256, v / 256 % 256, v / 65536 % 256, v / 16777216 % 256]

/-- `view.setInt16(offset, v, true)`: the two little-endian bytes of the
two's-complement representation of `v mod 2^16`. -/
def i16le (v : Int) : List Nat := u16le (v % 65536).toNat

/-- App.tsx lines 39-85, `audioBufferToWav`: clamp/scale channel 0 into
16-bit PCM codes, then emit the 44-byte RIFF/WAVE header followed by the
little-endian sample words.  Each `writeString`/`setUint*`/`setInt16`
call of the source becomes one list segment, in the same order. -/
def audioBufferToWav (b : AudioBuffer) : List Nat :=
  let numChannels := b.numberOfChannels
  let sampleRate := b.sampleRate
  let pcmData : List Int := (channel0 b).map floatToInt16
  let dataLength := pcmData.length * 2
  [82, 73, 70, 70] ++                                -- 'RIFF'
  u32le (36 + dataLength) ++
  [87, 65, 86, 69] ++                                -- 'WAVE'
  [102, 109, 116, 32] ++                             -- 'fmt '
  u32le 16 ++
  u16le 1 ++                                         -- PCM format code
  u16le numChannels ++
  u32le sampleRate ++
  u32le (sampleRate * numChannels * 2) ++            -- byte rate
  u16le (numChannels * 2) ++                         -- block align
  u16le 16 ++                                        -- bits per sample
  [100, 97, 116, 97] ++                              -- 'data'
  u32le dataLength ++
  pcmData.flatMap i16le

/-- Little-endian 16-bit read at a byte offset (out-of-range bytes read
as 0). -/
def readU16 (l : List Nat) (off : Nat) : Nat :=
  l.getD off 0 + 256 * l.getD (off + 1) 0

/-- Little-endian 32-bit read at a byte offset (out-of-range bytes read
as 0). -/
def readU32 (l : List Nat) (off : Nat) : Nat :=
  l.getD off 0 + 256 * l.getD (off + 1) 0 + 65536 * l.getD (off + 2) 0 +
    16777216 * l.getD (off + 3) 0

/-- Ledger entry for one `AudioBufferSourceNode` the app created
(`audioContextRef.current.createBufferSource()`).  `vid` identifies the
node, `onendedSet` records whether its `onended` handler is still
attached (App.tsx line 113 sets it to `null` before stopping),
`connected` whether it is connected to `ctx.destination`, `stopped`
whether `stop()` was called, `ended` whether its ended event has been
delivered.  Every node the app creates is started immediately, so no
separate started flag is needed. -/
structure VoiceRec where
  vid : Nat
  onendedSet : Bool
  connected : Bool
  stopped : Bool
  ended : Bool
deriving DecidableEq

/-- The React state of `App` plus the two refs and the audio-node ledger.
`current` models `audioSourceRef.current` (by node id), `ctxExists` and
`ctxSuspended` model `audioContextRef.current` and its state, `nextId`
supplies fresh node ids. -/
structure AppState where
  isLoading : Bool
  isPlaying : Bool
  error : Option String
  audioUrl : Option (List Nat)
  audioBuffer : Option AudioBuffer
  ctxExists : Bool
  ctxSuspended : Bool
  current : Option Nat
  nextId : Nat
  voices : List VoiceRec
deriving DecidableEq

/-- Initial React state (App.tsx lines 91-98). -/
def initState : AppState :=
  { isLoading := false, isPlaying := false, error := none, audioUrl := none
    audioBuffer := none, ctxExists := false, ctxSuspended := false
    current := none, nextId := 0, voices := [] }

/-- The validation message of App.tsx line 102. -/
def validationMsg : String := "Please enter some text to generate speech."

/-- App.tsx lines 112-117: `onended = null; stop(); disconnect();` applied
to the node with id `a`. -/
def stopCurrentVoice (a : Nat) (vs : List VoiceRec) : List VoiceRec :=
  vs.map fun v =>
    if v.vid = a then { v with onendedSet := false, stopped := true, connected := false }
    else v

/-- App.tsx lines 177-180: `stop(); disconnect();` applied to the node
with id `a` — the `onended` handler is not cleared here. -/
def stopVoiceKeepHandler (a : Nat) (vs : List VoiceRec) : List VoiceRec :=
  vs.map fun v =>
    if v.vid = a then { v with stopped := true, connected := false }
    else v

/-- App.tsx lines 100-163, `handleGenerateSpeech`, run to completion.
`textNonempty` is the outcome of the `text.trim()` check; `result` is the
outcome of `await generateSpeech(text, selectedVoice)` (the collaborator
boundary), carrying the decoded base64 payload on success.  The single-
threaded await structure of the handler lets it be modelled as one atomic
transition: while it is in flight the playback controls are unmounted
(the url/buffer state was cleared) and the generate button is disabled,
and the superseded node's handler was already detached. -/
def generate (s : AppState) (textNonempty : Bool) (result : Except String (List Nat)) :
    AppState :=
  if textNonempty = false then
    { s with error := some validationMsg }
  else
    let s1 := { s with isLoading := true, error := none, audioUrl := none,
                       audioBuffer := none }
    let s2 := match s1.current with
      | some a => { s1 with voices := stopCurrentVoice a s1.voices, current := none }
      | none => s1
    let s3 := if s2.ctxExists && s2.ctxSuspended then { s2 with ctxSuspended := false }
              else s2
    let s4 := { s3 with isPlaying := false }
    match result with
    | .error msg =>
        { s4 with error := some msg, isPlaying := false, audioUrl := none,
                  audioBuffer := none, isLoading := false }
    | .ok bytes =>
        let s5 := if s4.ctxExists then s4
                  else { s4 with ctxExists := true, ctxSuspended := false }
        match decodeAudioData bytes TTS_SAMPLE_RATE TTS_CHANNEL_COUNT with
        | .error msg =>
            { s5 with error := some msg, isPlaying := false, audioUrl := none,
                      audioBuffer := none, isLoading := false }
        | .ok buf =>
            { s5 with audioBuffer := some buf
                      audioUrl := some (audioBufferToWav buf)
                      voices := s5.voices ++
                        [{ vid := s5.nextId, onendedSet := true, connected := true,
                           stopped := false, ended := false }]
                      current := some s5.nextId
                      nextId := s5.nextId + 1
                      isPlaying := true, isLoading := false }

/-- App.tsx lines 165-195, `handleTogglePlayPause`, run to completion. -/
def togglePlayPause (s : AppState) : AppState :=
  if s.ctxExists = false ∨ s.audioBuffer = none then s
  else if s.isPlaying then
    { s with ctxSuspended := true, isPlaying := false }
  else if s.ctxSuspended then
    { s with ctxSuspended := false, isPlaying := true }
  else
    let s1 := match s.current with
      | some a => { s with voices := stopVoiceKeepHandler a s.voices }
      | none => s
    { s1 with voices := s1.voices ++
                [{ vid := s1.nextId, onendedSet := true, connected := true,
                   stopped := false, ended := false }]
              current := some s1.nextId
              nextId := s1.nextId + 1
              isPlaying := true }

/-- Delivery of the `ended` event for node `a`.  The event fires at most
once per node; if the node's `onended` handler is still attached it runs
the callback of App.tsx lines 144-150 / 184-189, which mutates the React
state only when `audioSourceRef.current === source`. -/
def fireEnded (a : Nat) (s : AppState) : AppState :=
  match s.voices.find? (fun v => v.vid == a) with
  | none => s
  | some v =>
    if v.ended then s
    else
      let s1 := { s with voices := s.voices.map fun w =>
                    if w.vid = a then { w with ended := true } else w }
      if v.onendedSet then
        if s1.current = some a then { s1 with isPlaying := false, current := none }
        else s1
      else s1

/-- One user/runtime event against the app. -/
inductive Op
  | gen (textNonempty : Bool) (result : Except String (List Nat))
  | toggle
  | ended (a : Nat)

/-- Apply one event. -/
def step (s : AppState) : Op → AppState
  | .gen t r => generate s t r
  | .toggle => togglePlayPause s
  | .ended a => fireEnded a s

/-- Run a sequence of events from the initial state. -/
def run (ops : List Op) : AppState := ops.foldl step initState

/-- A node that is connected and has not finished: the ones that can be
audibly rendering. -/
def activeConn (v : VoiceRec) : Bool := v.connected && !v.ended

/-- Inductive invariant of the transport: node ids are below `nextId` and
distinct, and any connected, unfinished node is the recorded current one. -/
def Inv (s : AppState) : Prop :=
  (∀ v ∈ s.voices, v.vid < s.nextId) ∧
  s.voices.Pairwise (fun u v => u.vid ≠ v.vid) ∧
  (∀ v ∈ s.voices, v.connected = true → v.ended = false → s.current = some v.vid)

/-- A one-sample silent buffer, used to instantiate the header theorem. -/
def demoBuf : AudioBuffer := ⟨1, 24000, [[0]]⟩

/-- A one-sample buffer holding the largest positive quantised sample,
code 32767, i.e. the float 32767/32768. -/
def boundaryBuf : AudioBuffer := ⟨1, 24000, [[(32767 : ℚ) / 32768]]⟩

/-! ### Byte-level helper lemmas -/

theorem int16OfBytes_lb (lo hi : Nat) : -32768 ≤ int16OfBytes lo hi := by
  simp only [int16OfBytes]
  split <;> omega

theorem int16OfBytes_ub (lo hi : Nat) : int16OfBytes lo hi ≤ 32767 := by
  simp only [int16OfBytes]
  split <;> omega

theorem i16le_length (v : Int) : (i16le v).length = 2 := rfl

theorem int16OfBytes_i16le (v : Int) (h1 : -32768 ≤ v) (h2 : v ≤ 32767) :
    int16OfBytes ((i16le v).getD 0 0) ((i16le v).getD 1 0) = v := by
  have hnn : 0 ≤ v % 65536 := Int.emod_nonneg v (by norm_num)
  have hni : ((v % 65536).toNat : Int) = v % 65536 := Int.toNat_of_nonneg hnn
  simp only [i16le, u16le, int16OfBytes, List.getD_cons_zero, List.getD_cons_succ]
  split <;> omega

theorem flatMap_i16le_length (l : List Int) :
    (l.flatMap i16le).length = 2 * l.length := by
  induction l with
  | nil => rfl
  | cons v tl ih =>
      simp only [List.flatMap_cons, List.length_append, i16le_length, ih,
        List.length_cons]
      omega

theorem flatMap_i16le_getD (l : List Int) (n : Nat) (h : n < l.length) :
    (l.flatMap i16le).getD (2 * n) 0 = (i16le (l.getD n 0)).getD 0 0 ∧
    (l.flatMap i16le).getD (2 * n + 1) 0 = (i16le (l.getD n 0)).getD 1 0 := by
  induction l generalizing n with
  | nil => simp at h
  | cons v tl ih =>
      cases n with
      | zero => simp [i16le, u16le]
      | succ m =>
          have hm : m < tl.length := by simpa using h
          have h2 : 2 * (m + 1) = 2 * m + 1 + 1 := by omega
          rw [h2]
          simpa only [List.flatMap_cons, i16le, u16le, List.cons_append,
            List.nil_append, List.getD_cons_succ, List.getD_cons_zero]
            using ih m hm

theorem int16ArrayOfBytes_flatMap (l : List Int)
    (hb : ∀ v ∈ l, -32768 ≤ v ∧ v ≤ 32767) :
    int16ArrayOfBytes (l.flatMap i16le) = l := by
  have hlen : (l.flatMap i16le).length = 2 * l.length := flatMap_i16le_length l
  apply List.ext_getElem
  · simp [int16ArrayOfBytes, hlen]
  · intro n h1 h2
    have hn : n < l.length := by simpa [int16ArrayOfBytes, hlen] using h1
    have hget := flatMap_i16le_getD l n hn
    have hbn : -32768 ≤ l.getD n 0 ∧ l.getD n 0 ≤ 32767 := by
      refine hb _ ?_
      rw [List.getD_eq_getElem l 0 hn]
      exact List.getElem_mem hn
    simp only [int16ArrayOfBytes, hlen, List.getElem_map, List.getElem_range]
    rw [hget.1, hget.2, int16OfBytes_i16le _ hbn.1 hbn.2,
      List.getD_eq_getElem l 0 hn]

/-! ### Sample conversion lemmas -/

theorem toInt16wrap_eq_self (v : Int) (h1 : -32768 ≤ v) (h2 : v ≤ 32767) :
    toInt16wrap v = v := by
  unfold toInt16wrap
  omega

theorem jsClamp_lb (x : ℚ) : -1 ≤ jsClamp x := le_max_left _ _

theorem jsClamp_ub (x : ℚ) : jsClamp x ≤ 1 :=
  max_le (by norm_num) (min_le_left _ _)

theorem ratTrunc_jsScale_lb (x : ℚ) : -32768 ≤ ratTrunc (jsScale (jsClamp x)) := by
  unfold jsScale ratTrunc
  split
  · rename_i hneg
    rw [if_pos (by nlinarith [jsClamp_lb x, jsClamp_ub x] : jsClamp x * 32768 < 0)]
    have h1 : (((-32768 : Int) : ℚ)) ≤ jsClamp x * 32768 := by
      push_cast
      nlinarith [jsClamp_lb x]
    have h2 := Int.ceil_le_ceil h1
    rwa [Int.ceil_intCast] at h2
  · rename_i hpos
    have hs : 0 ≤ jsClamp x := not_lt.mp hpos
    have h1 : (0 : ℚ) ≤ jsClamp x * 32767 := by positivity
    rw [if_neg (not_lt.mpr h1)]
    have : (0 : Int) ≤ ⌊jsClamp x * 32767⌋ := Int.floor_nonneg.mpr h1
    omega

theorem ratTrunc_jsScale_ub (x : ℚ) : ratTrunc (jsScale (jsClamp x)) ≤ 32767 := by
  unfold jsScale ratTrunc
  split
  · rename_i hneg
    rw [if_pos (by nlinarith [jsClamp_lb x, jsClamp_ub x] : jsClamp x * 32768 < 0)]
    have h1 : jsClamp x * 32768 ≤ ((0 : Int) : ℚ) := by push_cast; nlinarith
    have : ⌈jsClamp x * 32768⌉ ≤ (0 : Int) := Int.ceil_le.mpr h1
    omega
  · rename_i hpos
    have hs : 0 ≤ jsClamp x := not_lt.mp hpos
    have h1 : jsClamp x * 32767 ≤ ((32767 : Int) : ℚ) := by
      push_cast
      nlinarith [jsClamp_ub x]
    rw [if_neg (not_lt.mpr (by positivity : (0:ℚ) ≤ jsClamp x * 32767))]
    have h2 := Int.floor_le_floor h1
    rwa [Int.floor_intCast] at h2

theorem floatToInt16_eq_trunc (x : ℚ) :
    floatToInt16 x = ratTrunc (jsScale (jsClamp x)) := by
  unfold floatToInt16
  exact toInt16wrap_eq_self _ (ratTrunc_jsScale_lb x) (ratTrunc_jsScale_ub x)

theorem floatToInt16_lb (x : ℚ) : -32768 ≤ floatToInt16 x := by
  rw [floatToInt16_eq_trunc]; exact ratTrunc_jsScale_lb x

theorem floatToInt16_ub (x : ℚ) : floatToInt16 x ≤ 32767 := by
  rw [floatToInt16_eq_trunc]; exact ratTrunc_jsScale_ub x

/-- The exact value the encoder stores for a quantised sample `k/32768`,
`k` a 16-bit code: negative and zero codes are reproduced, positive codes
drop by one. -/
theorem floatToInt16_quant (k : Int) (h1 : -32768 ≤ k) (h2 : k ≤ 32767) :
    floatToInt16 ((k : ℚ) / 32768) = if k ≤ 0 then k else k - 1 := by
  have hc1 : ((-32768 : Int) : ℚ) ≤ (k : ℚ) := by exact_mod_cast h1
  have hc2 : (k : ℚ) ≤ ((32767 : Int) : ℚ) := by exact_mod_cast h2
  push_cast at hc1 hc2
  have hk1 : (-1 : ℚ) ≤ (k : ℚ) / 32768 := by
    rw [le_div_iff₀ (by norm_num : (0:ℚ) < 32768)]
    linarith
  have hk2 : (k : ℚ) / 32768 ≤ 1 := by
    rw [div_le_iff₀ (by norm_num : (0:ℚ) < 32768)]
    linarith
  have hclamp : jsClamp ((k : ℚ) / 32768) = (k : ℚ) / 32768 := by
    unfold jsClamp
    rw [min_eq_right hk2, max_eq_right hk1]
  rw [floatToInt16_eq_trunc, hclamp]
  unfold jsScale ratTrunc
  by_cases hneg : k < 0
  · have hkq : (k : ℚ) < 0 := by exact_mod_cast hneg
    have hq : (k : ℚ) / 32768 < 0 := div_neg_of_neg_of_pos hkq (by norm_num)
    rw [if_pos hq, div_mul_cancel₀ _ (by norm_num : (32768:ℚ) ≠ 0), if_pos hkq,
      Int.ceil_intCast, if_pos (by omega : k ≤ 0)]
  · have hk0 : 0 ≤ k := not_lt.mp hneg
    have hkq : (0 : ℚ) ≤ (k : ℚ) := by exact_mod_cast hk0
    have hq : ¬((k : ℚ) / 32768 < 0) := not_lt.mpr (by positivity)
    rw [if_neg hq]
    have hscaled : (k : ℚ) / 32768 * 32767 = ((32767 * k : Int) : ℚ) / 32768 := by
      push_cast
      ring
    rw [hscaled]
    have hnn : ¬(((32767 * k : Int) : ℚ) / 32768 < 0) := by
      push_neg
      have : (0 : ℚ) ≤ ((32767 * k : Int) : ℚ) := by positivity
      positivity
    rw [if_neg hnn]
    by_cases hk0eq : k = 0
    · subst hk0eq
      norm_num
    · have hk1' : 1 ≤ k := by omega
      have hkq1 : (1 : ℚ) ≤ (k : ℚ) := by exact_mod_cast hk1'
      rw [if_neg (by omega : ¬(k ≤ 0)), Int.floor_eq_iff (α := ℚ)]
      constructor
      · rw [le_div_iff₀ (by norm_num : (0:ℚ) < 32768)]
        push_cast
        nlinarith
      · rw [div_lt_iff₀ (by norm_num : (0:ℚ) < 32768)]
        push_cast
        nlinarith

/-! ### Decoder lemmas -/

theorem range_map_getD {α β : Type} [Inhabited α] (l : List α) (f : α → β) (d : α) :
    (List.range l.length).map (fun i => f (l.getD i d)) = l.map f := by
  apply List.ext_getElem
  · simp
  · intro n h1 h2
    have hn : n < l.length := by simpa using h2
    simp [List.getD_eq_getElem?_getD, List.getElem?_eq_getElem hn]

/-- Decoding the encoder's data section: for in-range 16-bit codes the PCM
decoder recovers exactly the codes divided by 32768. -/
theorem decodeAudioData_flatMap (l : List Int) (rate : Nat)
    (hb : ∀ v ∈ l, -32768 ≤ v ∧ v ≤ 32767) (hne : l ≠ []) :
    decodeAudioData (l.flatMap i16le) rate 1 =
      .ok ⟨1, rate, [l.map (fun v => ((v : Int) : ℚ) / 32768)]⟩ := by
  have hlen : (l.flatMap i16le).length = 2 * l.length := flatMap_i16le_length l
  have harr : int16ArrayOfBytes (l.flatMap i16le) = l := int16ArrayOfBytes_flatMap l hb
  have hlne : l.length ≠ 0 := by
    simpa [List.length_eq_zero] using hne
  simp only [decodeAudioData, harr, Nat.div_one]
  rw [if_neg (by omega), if_neg hlne]
  refine congrArg Except.ok (congrArg (AudioBuffer.mk 1 rate) ?_)
  have hr1 : List.range 1 = [0] := rfl
  rw [hr1, List.map_cons, List.map_nil]
  refine congrArg (fun c => [c]) ?_
  have hmap := range_map_getD l (fun v => ((v : Int) : ℚ) / 32768) 0
  simpa using hmap

theorem audioBufferToWav_drop44 (b : AudioBuffer) :
    (audioBufferToWav b).drop 44 = ((channel0 b).map floatToInt16).flatMap i16le := rfl

theorem getD_map {α β : Type} (l : List α) (f : α → β) (d1 : α) (d2 : β)
    (i : Nat) (h : i < l.length) :
    (l.map f).getD i d2 = f (l.getD i d1) := by
  rw [List.getD_eq_getElem (l.map f) d2 (by simpa using h),
    List.getD_eq_getElem l d1 h, List.getElem_map]

theorem getD_range_map {β : Type} (n : Nat) (f : Nat → β) (d : β)
    (i : Nat) (h : i < n) :
    ((List.range n).map f).getD i d = f i := by
  rw [List.getD_eq_getElem ((List.range n).map f) d (by simpa using h),
    List.getElem_map, List.getElem_range]

theorem flatMap_i16le_drop_take (l : List Int) (i : Nat) (h : i < l.length) :
    ((l.flatMap i16le).drop (2 * i)).take 2 = i16le (l.getD i 0) := by
  induction l generalizing i with
  | nil => simp at h
  | cons v tl ih =>
      cases i with
      | zero => simp [i16le, u16le]
      | succ m =>
          have hm : m < tl.length := by simpa using h
          have h2 : 2 * (m + 1) = 2 * m + 1 + 1 := by omega
          rw [h2]
          simpa only [List.flatMap_cons, i16le, u16le, List.cons_append,
            List.nil_append, List.drop_succ_cons, List.getD_cons_succ]
            using ih m hm

theorem getD_drop0 (l : List Nat) (i j : Nat) :
    (l.drop i).getD j 0 = l.getD (i + j) 0 := by
  simp [List.getD_eq_getElem?_getD, List.getElem?_drop]

theorem getD_take0 (l : List Nat) (n k : Nat) (h : k < n) :
    (l.take n).getD k 0 = l.getD k 0 := by
  simp [List.getD_eq_getElem?_getD, List.getElem?_take, h]

/-- A 32-bit header field can be read back from its 4-byte segment. -/
theorem readU32_take (l : List Nat) (off v : Nat) (hv : v < 4294967296)
    (hseg : (l.drop off).take 4 = u32le v) : readU32 l off = v := by
  have hk : ∀ k, k < 4 → l.getD (off + k) 0 = (u32le v).getD k 0 := by
    intro k hk4
    rw [← getD_drop0, ← hseg, getD_take0 _ 4 k hk4]
  have e0 : l.getD off 0 = (u32le v).getD 0 0 := by simpa using hk 0 (by norm_num)
  have e1 := hk 1 (by norm_num)
  have e2 := hk 2 (by norm_num)
  have e3 := hk 3 (by norm_num)
  have g0 : (u32le v).getD 0 0 = v % 256 := rfl
  have g1 : (u32le v).getD 1 0 = v / 256 % 256 := rfl
  have g2 : (u32le v).getD 2 0 = v / 65536 % 256 := rfl
  have g3 : (u32le v).getD 3 0 = v / 16777216 % 256 := rfl
  unfold readU32
  rw [e0, e1, e2, e3, g0, g1, g2, g3]
  omega

/-- A 16-bit header field can be read back from its 2-byte segment. -/
theorem readU16_take (l : List Nat) (off v : Nat) (hv : v < 65536)
    (hseg : (l.drop off).take 2 = u16le v) : readU16 l off = v := by
  have hk : ∀ k, k < 2 → l.getD (off + k) 0 = (u16le v).getD k 0 := by
    intro k hk2
    rw [← getD_drop0, ← hseg, getD_take0 _ 2 k hk2]
  have e0 : l.getD off 0 = (u16le v).getD 0 0 := by simpa using hk 0 (by norm_num)
  have e1 := hk 1 (by norm_num)
  have g0 : (u16le v).getD 0 0 = v % 256 := rfl
  have g1 : (u16le v).getD 1 0 = v / 256 % 256 := rfl
  unfold readU16
  rw [e0, e1, g0, g1]
  omega

/-! ### Transport invariant lemmas -/

theorem inv_initState : Inv initState := by
  refine ⟨?_, ?_, ?_⟩ <;> simp [initState]

theorem vid_lt_map_update (f : VoiceRec → VoiceRec) (hf : ∀ v, (f v).vid = v.vid)
    (vs : List VoiceRec) (n : Nat) (h : ∀ v ∈ vs, v.vid < n) :
    ∀ v ∈ vs.map f, v.vid < n := by
  intro v hv
  rcases List.mem_map.mp hv with ⟨w, hw, rfl⟩
  rw [hf]
  exact h w hw

theorem pairwise_vid_map_update (f : VoiceRec → VoiceRec)
    (hf : ∀ v, (f v).vid = v.vid) (vs : List VoiceRec)
    (h : vs.Pairwise fun u v => u.vid ≠ v.vid) :
    (vs.map f).Pairwise fun u v => u.vid ≠ v.vid := by
  rw [List.pairwise_map]
  refine h.imp ?_
  intro a b hab
  rw [hf, hf]
  exact hab

theorem stop_update_no_active (g : VoiceRec → VoiceRec)
    (hgv : ∀ v, (g v).vid = v.vid) (hgc : ∀ v, (g v).connected = false)
    (a : Nat) (vs : List VoiceRec)
    (h3 : ∀ v ∈ vs, v.connected = true → v.ended = false →
      (some a : Option Nat) = some v.vid) :
    ∀ v ∈ vs.map (fun v => if v.vid = a then g v else v),
      v.connected = true → v.ended = false → False := by
  intro v hv hc he
  rcases List.mem_map.mp hv with ⟨w, hw, rfl⟩
  by_cases hw' : w.vid = a
  · rw [if_pos hw'] at hc he
    rw [hgc w] at hc
    exact Bool.false_ne_true hc
  · rw [if_neg hw'] at hc he
    have := h3 w hw hc he
    exact hw' (Option.some.inj this).symm

theorem inv_append_fresh (vs : List VoiceRec) (n : Nat)
    (h1 : ∀ v ∈ vs, v.vid < n)
    (h2 : vs.Pairwise fun u v => u.vid ≠ v.vid)
    (h3 : ∀ v ∈ vs, v.connected = true → v.ended = false → False) :
    (∀ v ∈ vs ++ [(⟨n, true, true, false, false⟩ : VoiceRec)], v.vid < n + 1) ∧
    ((vs ++ [(⟨n, true, true, false, false⟩ : VoiceRec)]).Pairwise
      fun u v => u.vid ≠ v.vid) ∧
    (∀ v ∈ vs ++ [(⟨n, true, true, false, false⟩ : VoiceRec)],
      v.connected = true → v.ended = false → (some n : Option Nat) = some v.vid) := by
  refine ⟨?_, ?_, ?_⟩
  · intro v hv
    rcases List.mem_append.mp hv with hv | hv
    · exact Nat.lt_succ_of_lt (h1 v hv)
    · rcases List.mem_singleton.mp hv with rfl
      exact Nat.lt_succ_self n
  · rw [List.pairwise_append]
    refine ⟨h2, List.pairwise_singleton _ _, ?_⟩
    intro u hu w hw
    rcases List.mem_singleton.mp hw with rfl
    exact Nat.ne_of_lt (h1 u hu)
  · intro v hv hc he
    rcases List.mem_append.mp hv with hv | hv
    · exact absurd (h3 v hv hc he) not_false
    · rcases List.mem_singleton.mp hv with rfl
      rfl

theorem countP_active_le_one (l : List VoiceRec) (c : Option Nat)
    (hpw : l.Pairwise fun u v => u.vid ≠ v.vid)
    (h : ∀ v ∈ l, v.connected = true → v.ended = false → c = some v.vid) :
    l.countP activeConn ≤ 1 := by
  induction l with
  | nil => simp
  | cons v tl ih =>
      rw [List.countP_cons]
      by_cases hv : activeConn v = true
      · have hparts : v.connected = true ∧ v.ended = false := by
          unfold activeConn at hv
          constructor
          · exact (Bool.and_eq_true _ _ |>.mp hv).1
          · simpa using (Bool.and_eq_true _ _ |>.mp hv).2
        have hc : c = some v.vid :=
          h v (List.mem_cons_self v tl) hparts.1 hparts.2
        have htl : tl.countP activeConn = 0 := by
          rw [List.countP_eq_zero]
          intro w hw hwa
          have hwparts : w.connected = true ∧ w.ended = false := by
            unfold activeConn at hwa
            constructor
            · exact (Bool.and_eq_true _ _ |>.mp hwa).1
            · simpa using (Bool.and_eq_true _ _ |>.mp hwa).2
          have hcw : c = some w.vid :=
            h w (List.mem_cons_of_mem v hw) hwparts.1 hwparts.2
          have hne : v.vid ≠ w.vid := (List.pairwise_cons.mp hpw).1 w hw
          rw [hc] at hcw
          exact hne (Option.some.inj hcw)
        simp [htl, hv]
      · have := ih (List.pairwise_cons.mp hpw).2
          (fun w hw => h w (List.mem_cons_of_mem v hw))
        simp [hv]
        simpa using this

theorem inv_countP (s : AppState) (h : Inv s) :
    s.voices.countP activeConn ≤ 1 :=
  countP_active_le_one s.voices s.current h.2.1
    (fun v hv hc he => h.2.2 v hv hc he)

theorem stopCurrentVoice_vid_lt (a : Nat) (vs : List VoiceRec) (n : Nat)
    (h : ∀ v ∈ vs, v.vid < n) : ∀ v ∈ stopCurrentVoice a vs, v.vid < n := by
  simp only [stopCurrentVoice]
  exact vid_lt_map_update _ (fun v => by split <;> rfl) vs n h

theorem stopCurrentVoice_pairwise (a : Nat) (vs : List VoiceRec)
    (h : vs.Pairwise fun u v => u.vid ≠ v.vid) :
    (stopCurrentVoice a vs).Pairwise fun u v => u.vid ≠ v.vid := by
  simp only [stopCurrentVoice]
  exact pairwise_vid_map_update _ (fun v => by split <;> rfl) vs h

theorem stopCurrentVoice_no_active (a : Nat) (vs : List VoiceRec)
    (h3 : ∀ v ∈ vs, v.connected = true → v.ended = false →
      (some a : Option Nat) = some v.vid) :
    ∀ v ∈ stopCurrentVoice a vs, v.connected = true → v.ended = false → False := by
  simp only [stopCurrentVoice]
  exact stop_update_no_active
    (fun v => { v with onendedSet := false, stopped := true, connected := false })
    (fun v => rfl) (fun v => rfl) a vs h3

theorem stopVoiceKeepHandler_vid_lt (a : Nat) (vs : List VoiceRec) (n : Nat)
    (h : ∀ v ∈ vs, v.vid < n) : ∀ v ∈ stopVoiceKeepHandler a vs, v.vid < n := by
  simp only [stopVoiceKeepHandler]
  exact vid_lt_map_update _ (fun v => by split <;> rfl) vs n h

theorem stopVoiceKeepHandler_pairwise (a : Nat) (vs : List VoiceRec)
    (h : vs.Pairwise fun u v => u.vid ≠ v.vid) :
    (stopVoiceKeepHandler a vs).Pairwise fun u v => u.vid ≠ v.vid := by
  simp only [stopVoiceKeepHandler]
  exact pairwise_vid_map_update _ (fun v => by split <;> rfl) vs h

theorem stopVoiceKeepHandler_no_active (a : Nat) (vs : List VoiceRec)
    (h3 : ∀ v ∈ vs, v.connected = true → v.ended = false →
      (some a : Option Nat) = some v.vid) :
    ∀ v ∈ stopVoiceKeepHandler a vs, v.connected = true → v.ended = false → False := by
  simp only [stopVoiceKeepHandler]
  exact stop_update_no_active
    (fun v => { v with stopped := true, connected := false })
    (fun v => rfl) (fun v => rfl) a vs h3

theorem inv_generate (s : AppState) (t : Bool) (r : Except String (List Nat))
    (h : Inv s) : Inv (generate s t r) := by
  obtain ⟨h1, h2, h3⟩ := h
  unfold generate
  by_cases ht : t = false
  · rw [if_pos ht]
    exact ⟨h1, h2, h3⟩
  rw [if_neg ht]
  rcases hcur : s.current with _ | a
  · -- current none: the stop block is a no-op
    dsimp only
    rcases r with msg | bytes
    · dsimp only
      split <;>
        exact ⟨h1, h2, fun v hv hc he => hcur ▸ h3 v hv hc he⟩
    · dsimp only
      rcases hdec : decodeAudioData bytes TTS_SAMPLE_RATE TTS_CHANNEL_COUNT
        with msg | buf <;> simp only [hdec]
      · split <;> split <;>
          exact ⟨h1, h2, fun v hv hc he => hcur ▸ h3 v hv hc he⟩
      · have hno : ∀ v ∈ s.voices, v.connected = true → v.ended = false → False :=
          fun v hv hc he => Option.noConfusion (hcur ▸ h3 v hv hc he)
        have hia := inv_append_fresh s.voices s.nextId h1 h2 hno
        split <;> split <;> exact ⟨hia.1, hia.2.1, hia.2.2⟩
  · -- current some a: the existing voice is stopped first
    dsimp only
    have h3a : ∀ v ∈ s.voices, v.connected = true → v.ended = false →
        (some a : Option Nat) = some v.vid :=
      fun v hv hc he => hcur ▸ h3 v hv hc he
    have hstop := stopCurrentVoice_no_active a s.voices h3a
    rcases r with msg | bytes
    · dsimp only
      split <;>
        exact ⟨stopCurrentVoice_vid_lt a s.voices s.nextId h1,
               stopCurrentVoice_pairwise a s.voices h2,
               fun v hv hc he => (hstop v hv hc he).elim⟩
    · dsimp only
      rcases hdec : decodeAudioData bytes TTS_SAMPLE_RATE TTS_CHANNEL_COUNT
        with msg | buf <;> simp only [hdec]
      · split <;> split <;>
          exact ⟨stopCurrentVoice_vid_lt a s.voices s.nextId h1,
                 stopCurrentVoice_pairwise a s.voices h2,
                 fun v hv hc he => (hstop v hv hc he).elim⟩
      · have hia := inv_append_fresh (stopCurrentVoice a s.voices) s.nextId
          (stopCurrentVoice_vid_lt a s.voices s.nextId h1)
          (stopCurrentVoice_pairwise a s.voices h2)
          hstop
        split <;> split <;> exact ⟨hia.1, hia.2.1, hia.2.2⟩

theorem inv_togglePlayPause (s : AppState) (h : Inv s) : Inv (togglePlayPause s) := by
  obtain ⟨h1, h2, h3⟩ := h
  unfold togglePlayPause
  split
  · exact ⟨h1, h2, h3⟩
  · split
    · exact ⟨h1, h2, h3⟩
    · split
      · exact ⟨h1, h2, h3⟩
      · rcases hcur : s.current with _ | a
        · dsimp only
          have hno : ∀ v ∈ s.voices, v.connected = true → v.ended = false → False :=
            fun v hv hc he => Option.noConfusion (hcur ▸ h3 v hv hc he)
          have hia := inv_append_fresh s.voices s.nextId h1 h2 hno
          exact ⟨hia.1, hia.2.1, hia.2.2⟩
        · dsimp only
          have h3a : ∀ v ∈ s.voices, v.connected = true → v.ended = false →
              (some a : Option Nat) = some v.vid :=
            fun v hv hc he => hcur ▸ h3 v hv hc he
          have hia := inv_append_fresh (stopVoiceKeepHandler a s.voices) s.nextId
            (stopVoiceKeepHandler_vid_lt a s.voices s.nextId h1)
            (stopVoiceKeepHandler_pairwise a s.voices h2)
            (stopVoiceKeepHandler_no_active a s.voices h3a)
          exact ⟨hia.1, hia.2.1, hia.2.2⟩

theorem inv_fireEnded (a : Nat) (s : AppState) (h : Inv s) : Inv (fireEnded a s) := by
  obtain ⟨h1, h2, h3⟩ := h
  rcases hf : s.voices.find? (fun v => v.vid == a) with _ | v
  · unfold fireEnded
    rw [hf]
    exact ⟨h1, h2, h3⟩
  · unfold fireEnded
    rw [hf]
    dsimp only
    split
    · exact ⟨h1, h2, h3⟩
    · have hfv : ∀ w : VoiceRec,
          ((if w.vid = a then { w with ended := true } else w) : VoiceRec).vid
            = w.vid := by
        intro w
        split <;> rfl
      have hm1 := vid_lt_map_update
        (fun w => if w.vid = a then { w with ended := true } else w) hfv
        s.voices s.nextId h1
      have hm2 := pairwise_vid_map_update
        (fun w => if w.vid = a then { w with ended := true } else w) hfv
        s.voices h2
      have hm3 : ∀ w ∈ s.voices.map
          (fun w => if w.vid = a then { w with ended := true } else w),
          w.connected = true → w.ended = false →
            s.current = some w.vid ∧ w.vid ≠ a := by
        intro w hw hc he
        rcases List.mem_map.mp hw with ⟨u, hu, rfl⟩
        by_cases hua : u.vid = a
        · rw [if_pos hua] at he
          exact absurd he (by simp)
        · rw [if_neg hua] at hc he ⊢
          exact ⟨h3 u hu hc he, hua⟩
      split
      · split
        · rename_i hcur
          refine ⟨hm1, hm2, ?_⟩
          intro w hw hc he
          obtain ⟨hcw, hwa⟩ := hm3 w hw hc he
          exact (hwa (Option.some.inj (hcw.symm.trans hcur))).elim
        · exact ⟨hm1, hm2, fun w hw hc he => (hm3 w hw hc he).1⟩
      · exact ⟨hm1, hm2, fun w hw hc he => (hm3 w hw hc he).1⟩

theorem inv_step (s : AppState) (op : Op) (h : Inv s) : Inv (step s op) := by
  cases op with
  | gen t r => exact inv_generate s t r h
  | toggle => exact inv_togglePlayPause s h
  | ended a => exact inv_fireEnded a s h

theorem inv_foldl (l : List Op) (s : AppState) (h : Inv s) :
    Inv (l.foldl step s) := by
  induction l generalizing s with
  | nil => exact h
  | cons op tl ih => exact ih (step s op) (inv_step s op h)

theorem inv_run (ops : List Op) : Inv (run ops) :=
  inv_foldl ops initState inv_initState

/-! ### Claim theorems -/

/-- C2: for every raw byte sequence whose length is not a multiple of
channelCount × 2 (the configured channel count is `TTS_CHANNEL_COUNT = 1`),
the PCM sample decoder fails — the `Int16Array` constructor throws — and
produces no sample buffer. -/
theorem C2_reject_misaligned (data : List Nat) (rate : Nat)
    (h : data.length % (TTS_CHANNEL_COUNT * 2) ≠ 0) :
    decodeAudioData data rate TTS_CHANNEL_COUNT = .error int16ByteLengthError := by
  have h2 : data.length % 2 ≠ 0 := by
    simpa [TTS_CHANNEL_COUNT] using h
  unfold decodeAudioData
  rw [if_pos h2]

/-- C2 witness: one byte is not a whole frame and is rejected. -/
theorem C2_witness :
    ([0] : List Nat).length % (TTS_CHANNEL_COUNT * 2) ≠ 0 ∧
    decodeAudioData [0] 24000 TTS_CHANNEL_COUNT = .error int16ByteLengthError :=
  ⟨by decide, C2_reject_misaligned [0] 24000 (by decide)⟩

/-- C4 counterexample: the empty byte sequence has length 0, a multiple of
channelCount × 2, yet the decoder fails (`createBuffer` rejects a zero
frame count) instead of returning a buffer. -/
theorem C4_counterexample :
    ([] : List Nat).length % (TTS_CHANNEL_COUNT * 2) = 0 ∧
    decodeAudioData [] 24000 TTS_CHANNEL_COUNT = .error createBufferLengthError :=
  ⟨by decide, by decide⟩

/-- C4 (amended to nonempty input): for every nonempty raw byte sequence
whose length is a multiple of channelCount × 2, the decoder reads each
consecutive byte pair LSB-first as a signed 16-bit integer, divides by
32768, places sample `i` of channel `c` at raw position `i × channelCount
+ c`, returns frameCount = totalSamples / channelCount, every channel has
that same length, and every sample lies in [-1, 32767/32768]. -/
theorem C4_decode_amended (data : List Nat) (rate numChannels : Nat)
    (hpos : 0 < numChannels) (hdvd : (numChannels * 2) ∣ data.length)
    (hne : data.length ≠ 0) :
    ∃ b : AudioBuffer,
      decodeAudioData data rate numChannels = .ok b ∧
      b.numberOfChannels = numChannels ∧
      b.sampleRate = rate ∧
      b.channelData.length = numChannels ∧
      (∀ ch ∈ b.channelData, ch.length = data.length / (numChannels * 2)) ∧
      (∀ c, c < numChannels → ∀ i, i < data.length / (numChannels * 2) →
        (b.channelData.getD c []).getD i 0 =
          ((int16OfBytes (data.getD (2 * (i * numChannels + c)) 0)
              (data.getD (2 * (i * numChannels + c) + 1) 0) : Int) : ℚ) / 32768) ∧
      (∀ ch ∈ b.channelData, ∀ q ∈ ch, -1 ≤ q ∧ q ≤ 32767 / 32768) := by
  have h2dvd : 2 ∣ data.length := dvd_trans ⟨numChannels, by ring⟩ hdvd
  have heven : data.length % 2 = 0 := by omega
  have hlenArr : (int16ArrayOfBytes data).length = data.length / 2 := by
    simp [int16ArrayOfBytes]
  have hfc : data.length / 2 / numChannels = data.length / (numChannels * 2) := by
    rw [Nat.div_div_eq_div_mul, Nat.mul_comm]
  have hfc0 : data.length / (numChannels * 2) ≠ 0 := by
    obtain ⟨k, hk⟩ := hdvd
    have hk0 : k ≠ 0 := by
      rintro rfl
      exact hne (by simpa using hk)
    rw [hk, Nat.mul_div_cancel_left k (by positivity : 0 < numChannels * 2)]
    exact hk0
  have hfcne : ¬((int16ArrayOfBytes data).length / numChannels = 0) := by
    rw [hlenArr, hfc]
    exact hfc0
  have harrD : ∀ n : Nat, -32768 ≤ (int16ArrayOfBytes data).getD n 0 ∧
      (int16ArrayOfBytes data).getD n 0 ≤ 32767 := by
    intro n
    by_cases hn : n < (int16ArrayOfBytes data).length
    · rw [List.getD_eq_getElem _ _ hn]
      have hn2 : n < data.length / 2 := by rwa [hlenArr] at hn
      simp only [int16ArrayOfBytes, List.getElem_map, List.getElem_range]
      exact ⟨int16OfBytes_lb _ _, int16OfBytes_ub _ _⟩
    · rw [List.getD_eq_default _ _ (by omega)]
      norm_num
  simp only [decodeAudioData]
  rw [if_neg (by omega), if_neg hfcne]
  refine ⟨_, rfl, rfl, rfl, by simp, ?_, ?_, ?_⟩
  · intro ch hch
    rcases List.mem_map.mp hch with ⟨c, hc, rfl⟩
    simp only [List.length_map, List.length_range]
    rw [hlenArr, hfc]
  · intro c hc i hi
    have hi' : i < data.length / 2 / numChannels := by rwa [hfc]
    have hi'' : i < (int16ArrayOfBytes data).length / numChannels := by
      rwa [hlenArr]
    have hpos2 : i * numChannels + c < data.length / 2 :=
      calc i * numChannels + c < i * numChannels + numChannels := by omega
        _ = (i + 1) * numChannels := by ring
        _ ≤ (data.length / 2 / numChannels) * numChannels :=
            Nat.mul_le_mul_right _ (by omega)
        _ ≤ data.length / 2 := Nat.div_mul_le_self _ _
    rw [getD_range_map numChannels _ [] c hc,
      getD_range_map _ _ 0 i hi'']
    congr 2
    rw [List.getD_eq_getElem _ _ (by rwa [hlenArr])]
    simp only [int16ArrayOfBytes, List.getElem_map, List.getElem_range]
  · intro ch hch q hq
    rcases List.mem_map.mp hch with ⟨c, hc, rfl⟩
    rcases List.mem_map.mp hq with ⟨i, hi, rfl⟩
    have hv := harrD (i * numChannels + c)
    constructor
    · rw [le_div_iff₀ (by norm_num : (0:ℚ) < 32768)]
      have : ((-32768 : Int) : ℚ) ≤ ((int16ArrayOfBytes data).getD
          (i * numChannels + c) 0 : ℚ) := by exact_mod_cast hv.1
      push_cast at this ⊢
      linarith
    · rw [div_le_div_iff (by norm_num : (0:ℚ) < 32768) (by norm_num : (0:ℚ) < 32768)]
      have : (((int16ArrayOfBytes data).getD (i * numChannels + c) 0 : Int) : ℚ)
          ≤ ((32767 : Int) : ℚ) := by exact_mod_cast hv.2
      push_cast at this ⊢
      nlinarith

/-- C4 witness: four bytes, two channels: two frames of one sample each. -/
theorem C4_witness :
    (0 < 2 ∧ (2 * 2) ∣ ([1, 0, 255, 127] : List Nat).length ∧
      ([1, 0, 255, 127] : List Nat).length ≠ 0) ∧
    (∃ b : AudioBuffer,
      decodeAudioData [1, 0, 255, 127] 24000 2 = .ok b ∧
      b.numberOfChannels = 2 ∧
      b.sampleRate = 24000 ∧
      b.channelData.length = 2 ∧
      (∀ ch ∈ b.channelData, ch.length = ([1, 0, 255, 127] : List Nat).length / (2 * 2)) ∧
      (∀ c, c < 2 → ∀ i, i < ([1, 0, 255, 127] : List Nat).length / (2 * 2) →
        (b.channelData.getD c []).getD i 0 =
          ((int16OfBytes (([1, 0, 255, 127] : List Nat).getD (2 * (i * 2 + c)) 0)
              (([1, 0, 255, 127] : List Nat).getD (2 * (i * 2 + c) + 1) 0) : Int) : ℚ)
            / 32768) ∧
      (∀ ch ∈ b.channelData, ∀ q ∈ ch, -1 ≤ q ∧ q ≤ 32767 / 32768)) :=
  ⟨⟨by decide, by decide, by decide⟩,
    C4_decode_amended [1, 0, 255, 127] 24000 2 (by decide) (by decide) (by decide)⟩

/-- C5: the encoder's data section stores, at byte offset 44 + 2i, the
little-endian signed 16-bit value obtained from sample i of the first
channel by clamping to [-1, 1], scaling (negative × 32768, non-negative ×
32767) and truncating (`floatToInt16`). -/
theorem C5_dataSection (b : AudioBuffer) (i : Nat)
    (hi : i < (channel0 b).length) :
    ((audioBufferToWav b).drop (44 + 2 * i)).take 2 =
      i16le (floatToInt16 ((channel0 b).getD i 0)) := by
  rw [← List.drop_drop, audioBufferToWav_drop44,
    flatMap_i16le_drop_take _ i (by simpa using hi),
    getD_map (channel0 b) floatToInt16 0 0 i hi]

/-- C5 witness: the second sample of a two-sample buffer, -1 and 1/2,
lands at offset 46 as the little-endian code 16383. -/
theorem C5_witness :
    1 < (channel0 ⟨1, 24000, [[-1, 1 / 2]]⟩ : List ℚ).length ∧
    ((audioBufferToWav ⟨1, 24000, [[-1, 1 / 2]]⟩).drop (44 + 2 * 1)).take 2 =
      i16le (floatToInt16 ((channel0 ⟨1, 24000, [[-1, 1 / 2]]⟩).getD 1 0)) :=
  ⟨by decide, C5_dataSection ⟨1, 24000, [[-1, 1 / 2]]⟩ 1 (by decide)⟩

/-- C10: for every (finite-float, modelled as rational) input sample, the
clamp to [-1, 1] followed by the asymmetric scaling yields, after
truncation toward zero, a value in [-32768, 32767]; hence the signed
16-bit store never wraps modulo 2^16 and the stored code equals the
scaled value truncated toward zero. -/
theorem C10_no_wrap (x : ℚ) :
    -32768 ≤ ratTrunc (jsScale (jsClamp x)) ∧
    ratTrunc (jsScale (jsClamp x)) ≤ 32767 ∧
    floatToInt16 x = ratTrunc (jsScale (jsClamp x)) :=
  ⟨ratTrunc_jsScale_lb x, ratTrunc_jsScale_ub x, floatToInt16_eq_trunc x⟩

set_option maxHeartbeats 1600000 in
/-- C3: for a mono SampleBuffer of N frames the encoded container is
44 + 2N bytes, and the little-endian header fields at their fixed offsets
hold, in order: 'RIFF', 36 + 2N, 'WAVE', 'fmt ', 16, format 1, the channel
count, the sample rate, byte rate = sampleRate × channelCount × 2, block
align = channelCount × 2, bits per sample 16, 'data', and data size 2N. -/
theorem C3_header (b : AudioBuffer)
    (hch : b.numberOfChannels = 1)
    (hN : 36 + (channel0 b).length * 2 < 4294967296)
    (hsr : b.sampleRate * 2 < 4294967296) :
    (audioBufferToWav b).length = 44 + (channel0 b).length * 2 ∧
    (audioBufferToWav b).take 4 = [82, 73, 70, 70] ∧
    readU32 (audioBufferToWav b) 4 = 36 + (channel0 b).length * 2 ∧
    ((audioBufferToWav b).drop 8).take 4 = [87, 65, 86, 69] ∧
    ((audioBufferToWav b).drop 12).take 4 = [102, 109, 116, 32] ∧
    readU32 (audioBufferToWav b) 16 = 16 ∧
    readU16 (audioBufferToWav b) 20 = 1 ∧
    readU16 (audioBufferToWav b) 22 = b.numberOfChannels ∧
    readU32 (audioBufferToWav b) 24 = b.sampleRate ∧
    readU32 (audioBufferToWav b) 28 = b.sampleRate * b.numberOfChannels * 2 ∧
    readU16 (audioBufferToWav b) 32 = b.numberOfChannels * 2 ∧
    readU16 (audioBufferToWav b) 34 = 16 ∧
    ((audioBufferToWav b).drop 36).take 4 = [100, 97, 116, 97] ∧
    readU32 (audioBufferToWav b) 40 = (channel0 b).length * 2 := by
  have hs4 : ((audioBufferToWav b).drop 4).take 4
      = u32le (36 + ((channel0 b).map floatToInt16).length * 2) := rfl
  have hs16 : ((audioBufferToWav b).drop 16).take 4 = u32le 16 := rfl
  have hs20 : ((audioBufferToWav b).drop 20).take 2 = u16le 1 := rfl
  have hs22 : ((audioBufferToWav b).drop 22).take 2
      = u16le b.numberOfChannels := rfl
  have hs24 : ((audioBufferToWav b).drop 24).take 4 = u32le b.sampleRate := rfl
  have hs28 : ((audioBufferToWav b).drop 28).take 4
      = u32le (b.sampleRate * b.numberOfChannels * 2) := rfl
  have hs32 : ((audioBufferToWav b).drop 32).take 2
      = u16le (b.numberOfChannels * 2) := rfl
  have hs34 : ((audioBufferToWav b).drop 34).take 2 = u16le 16 := rfl
  have hs40 : ((audioBufferToWav b).drop 40).take 4
      = u32le (((channel0 b).map floatToInt16).length * 2) := rfl
  rw [List.length_map] at hs4 hs40
  refine ⟨?_, rfl, ?_, rfl, rfl, ?_, ?_, ?_, ?_, ?_, ?_, ?_, rfl, ?_⟩
  · have hlen : (audioBufferToWav b).length
        = 44 + (((channel0 b).map floatToInt16).flatMap i16le).length := by
      simp [audioBufferToWav, u32le, u16le]
      omega
    rw [hlen, flatMap_i16le_length, List.length_map]
    omega
  · exact readU32_take _ 4 _ (by omega) hs4
  · exact readU32_take _ 16 _ (by norm_num) hs16
  · exact readU16_take _ 20 _ (by norm_num) hs20
  · exact readU16_take _ 22 _ (by rw [hch]; norm_num) hs22
  · exact readU32_take _ 24 _ (by omega) hs24
  · exact readU32_take _ 28 _ (by rw [hch]; simpa using hsr) hs28
  · exact readU16_take _ 32 _ (by rw [hch]; norm_num) hs32
  · exact readU16_take _ 34 _ (by norm_num) hs34
  · exact readU32_take _ 40 _ (by omega) hs40

/-- C3 witness: the header of the one-sample silent buffer. -/
theorem C3_witness :
    (demoBuf.numberOfChannels = 1 ∧
      36 + (channel0 demoBuf).length * 2 < 4294967296 ∧
      demoBuf.sampleRate * 2 < 4294967296) ∧
    ((audioBufferToWav demoBuf).length = 44 + (channel0 demoBuf).length * 2 ∧
    (audioBufferToWav demoBuf).take 4 = [82, 73, 70, 70] ∧
    readU32 (audioBufferToWav demoBuf) 4 = 36 + (channel0 demoBuf).length * 2 ∧
    ((audioBufferToWav demoBuf).drop 8).take 4 = [87, 65, 86, 69] ∧
    ((audioBufferToWav demoBuf).drop 12).take 4 = [102, 109, 116, 32] ∧
    readU32 (audioBufferToWav demoBuf) 16 = 16 ∧
    readU16 (audioBufferToWav demoBuf) 20 = 1 ∧
    readU16 (audioBufferToWav demoBuf) 22 = demoBuf.numberOfChannels ∧
    readU32 (audioBufferToWav demoBuf) 24 = demoBuf.sampleRate ∧
    readU32 (audioBufferToWav demoBuf) 28 =
      demoBuf.sampleRate * demoBuf.numberOfChannels * 2 ∧
    readU16 (audioBufferToWav demoBuf) 32 = demoBuf.numberOfChannels * 2 ∧
    readU16 (audioBufferToWav demoBuf) 34 = 16 ∧
    ((audioBufferToWav demoBuf).drop 36).take 4 = [100, 97, 116, 97] ∧
    readU32 (audioBufferToWav demoBuf) 40 = (channel0 demoBuf).length * 2) :=
  ⟨⟨rfl, by decide, by decide⟩, C3_header demoBuf rfl (by decide) (by decide)⟩

/-- C1 (amended): for a nonempty buffer of integer-quantised samples
k/32768, k in [-32768, 32767], encoding with the container encoder's
sample conversion and decoding the data section with the PCM decoder
reproduces every sample within 1/32768 absolute error, and exactly for
every code k ≤ 0 — in particular exactly at code -32768.  (At code 32767
the round trip is off by exactly 1/32768, see the counterexample.) -/
theorem C1_roundTrip_amended (rate : Nat) (ks : List Int) (hne : ks ≠ [])
    (hb : ∀ k ∈ ks, -32768 ≤ k ∧ k ≤ 32767) :
    ∃ b : AudioBuffer,
      decodeAudioData
        ((audioBufferToWav
          ⟨1, rate, [ks.map fun k => ((k : Int) : ℚ) / 32768]⟩).drop 44)
        rate TTS_CHANNEL_COUNT = .ok b ∧
      ∃ ch : List ℚ, b.channelData = [ch] ∧ ch.length = ks.length ∧
        ∀ i, i < ks.length →
          |ch.getD i 0 - ((ks.getD i 0 : Int) : ℚ) / 32768| ≤ 1 / 32768 ∧
          (ks.getD i 0 ≤ 0 →
            ch.getD i 0 = ((ks.getD i 0 : Int) : ℚ) / 32768) := by
  have hch0 : channel0 ⟨1, rate, [ks.map fun k => ((k : Int) : ℚ) / 32768]⟩
      = ks.map fun k => ((k : Int) : ℚ) / 32768 := rfl
  have hslen : (ks.map fun k => ((k : Int) : ℚ) / 32768).length = ks.length :=
    List.length_map _ _
  have hpcm_len : ((ks.map fun k => ((k : Int) : ℚ) / 32768).map
      floatToInt16).length = ks.length := by
    simp
  have hbounds : ∀ v ∈ (ks.map fun k => ((k : Int) : ℚ) / 32768).map floatToInt16,
      -32768 ≤ v ∧ v ≤ 32767 := by
    intro v hv
    rcases List.mem_map.mp hv with ⟨x, hx, rfl⟩
    exact ⟨floatToInt16_lb x, floatToInt16_ub x⟩
  have hpne : (ks.map fun k => ((k : Int) : ℚ) / 32768).map floatToInt16 ≠ [] := by
    intro hc
    apply hne
    simpa using hc
  have hdec := decodeAudioData_flatMap
    ((ks.map fun k => ((k : Int) : ℚ) / 32768).map floatToInt16) rate hbounds hpne
  refine ⟨⟨1, rate, [((ks.map fun k => ((k : Int) : ℚ) / 32768).map
      floatToInt16).map fun v => ((v : Int) : ℚ) / 32768]⟩, ?_, _, rfl, ?_, ?_⟩
  · rw [audioBufferToWav_drop44, hch0]
    exact hdec
  · simpa using hpcm_len
  · intro i hi
    have hilen1 : i < ((ks.map fun k => ((k : Int) : ℚ) / 32768).map
        floatToInt16).length := by rwa [hpcm_len]
    have hilen2 : i < (ks.map fun k => ((k : Int) : ℚ) / 32768).length := by
      rwa [hslen]
    have e1 := getD_map ((ks.map fun k => ((k : Int) : ℚ) / 32768).map floatToInt16)
      (fun v => ((v : Int) : ℚ) / 32768) 0 0 i hilen1
    have e2 := getD_map (ks.map fun k => ((k : Int) : ℚ) / 32768) floatToInt16
      0 0 i hilen2
    have e3 := getD_map ks (fun k => ((k : Int) : ℚ) / 32768) 0 0 i hi
    have hkmem : ks.getD i 0 ∈ ks := by
      rw [List.getD_eq_getElem ks 0 hi]
      exact List.getElem_mem hi
    obtain ⟨hk1, hk2⟩ := hb _ hkmem
    have hquant := floatToInt16_quant (ks.getD i 0) hk1 hk2
    rw [e1, e2, e3, hquant]
    by_cases hk0 : ks.getD i 0 ≤ 0
    · rw [if_pos hk0]
      exact ⟨by simp, fun _ => rfl⟩
    · rw [if_neg hk0]
      constructor
      · have hdiff : ((ks.getD i 0 - 1 : Int) : ℚ) / 32768
            - ((ks.getD i 0 : Int) : ℚ) / 32768 = -(1 / 32768) := by
          push_cast
          ring
        rw [hdiff, abs_neg, abs_of_nonneg (by norm_num : (0:ℚ) ≤ 1 / 32768)]
      · intro hc
        exact absurd hc hk0

/-! ### Transport behaviour helper lemmas -/

theorem generate_error_resets (s : AppState) (msg : String) :
    (generate s true (.error msg)).error = some msg ∧
    (generate s true (.error msg)).isLoading = false ∧
    (generate s true (.error msg)).isPlaying = false ∧
    (generate s true (.error msg)).audioUrl = none ∧
    (generate s true (.error msg)).audioBuffer = none ∧
    (generate s true (.error msg)).current = none := by
  unfold generate
  rw [if_neg (by simp)]
  rcases hcur : s.current with _ | a <;> dsimp only <;> split <;>
    exact ⟨by trivial, by trivial, by trivial, by trivial, by trivial, by trivial⟩

theorem generate_decodeError_resets (s : AppState) (bytes : List Nat) (msg : String)
    (hdec : decodeAudioData bytes TTS_SAMPLE_RATE TTS_CHANNEL_COUNT = .error msg) :
    (generate s true (.ok bytes)).error = some msg ∧
    (generate s true (.ok bytes)).isLoading = false ∧
    (generate s true (.ok bytes)).isPlaying = false ∧
    (generate s true (.ok bytes)).audioUrl = none ∧
    (generate s true (.ok bytes)).audioBuffer = none ∧
    (generate s true (.ok bytes)).current = none := by
  unfold generate
  rw [if_neg (by simp)]
  rcases hcur : s.current with _ | a <;> dsimp only <;> simp only [hdec] <;>
    split <;> split <;>
    exact ⟨by trivial, by trivial, by trivial, by trivial, by trivial, by trivial⟩

theorem generate_validation_keeps (s : AppState) (r : Except String (List Nat)) :
    (generate s false r).error = some validationMsg ∧
    (generate s false r).isLoading = s.isLoading ∧
    (generate s false r).isPlaying = s.isPlaying ∧
    (generate s false r).audioUrl = s.audioUrl ∧
    (generate s false r).audioBuffer = s.audioBuffer ∧
    (generate s false r).current = s.current ∧
    (generate s false r).voices = s.voices := by
  unfold generate
  rw [if_pos rfl]
  exact ⟨rfl, rfl, rfl, rfl, rfl, rfl, rfl⟩

theorem generate_ok_playing (s : AppState) (bytes : List Nat) (buf : AudioBuffer)
    (hdec : decodeAudioData bytes TTS_SAMPLE_RATE TTS_CHANNEL_COUNT = .ok buf) :
    (generate s true (.ok bytes)).isPlaying = true := by
  unfold generate
  rw [if_neg (by simp)]
  rcases hcur : s.current with _ | a <;> dsimp only <;> simp only [hdec] <;>
    split <;> split <;> trivial

theorem generate_ok_effects (s : AppState) (a : Nat) (bytes : List Nat)
    (buf : AudioBuffer) (hcur : s.current = some a) (hlt : a < s.nextId)
    (hdec : decodeAudioData bytes TTS_SAMPLE_RATE TTS_CHANNEL_COUNT = .ok buf) :
    (generate s true (.ok bytes)).current = some s.nextId ∧
    (generate s true (.ok bytes)).isPlaying = true ∧
    (generate s true (.ok bytes)).ctxSuspended = false ∧
    (generate s true (.ok bytes)).audioBuffer = some buf ∧
    (generate s true (.ok bytes)).audioUrl = some (audioBufferToWav buf) ∧
    (generate s true (.ok bytes)).isLoading = false ∧
    (∀ v ∈ (generate s true (.ok bytes)).voices, v.vid = a →
      v.stopped = true ∧ v.connected = false ∧ v.onendedSet = false) := by
  unfold generate
  rw [if_neg (by simp)]
  dsimp only
  rw [hcur]
  dsimp only
  simp only [hdec]
  split <;> split <;> refine ⟨?_, ?_, ?_, ?_, ?_, ?_, ?_⟩
  all_goals try trivial
  all_goals try
    (rename_i hc1 hc2
     cases hcs : s.ctxSuspended with
     | false => rfl
     | true => simp_all)
  all_goals
    (intro v hv hva
     rcases List.mem_append.mp hv with hv | hv
     · simp only [stopCurrentVoice] at hv
       rcases List.mem_map.mp hv with ⟨w, hw, rfl⟩
       by_cases hwa : w.vid = a
       · rw [if_pos hwa]
         exact ⟨rfl, rfl, rfl⟩
       · rw [if_neg hwa] at hva
         exact absurd hva hwa
     · rcases List.mem_singleton.mp hv with rfl
       exact absurd hva (by simp; omega))

theorem fireEnded_frozen (s : AppState) (a : Nat) (h : s.current ≠ some a) :
    (fireEnded a s).isPlaying = s.isPlaying ∧ (fireEnded a s).current = s.current := by
  rcases hf : s.voices.find? (fun v => v.vid == a) with _ | v
  · unfold fireEnded
    rw [hf]
    exact ⟨rfl, rfl⟩
  · unfold fireEnded
    rw [hf]
    dsimp only
    split
    · exact ⟨by trivial, by trivial⟩
    · split <;> (try split) <;>
        first
          | exact ⟨by trivial, by trivial⟩
          | (rename_i hcur; exact absurd hcur h)

theorem generate_current_of_some (s : AppState) (a : Nat) (bytes : List Nat)
    (hcur : s.current = some a) :
    (generate s true (.ok bytes)).current = none ∨
    (generate s true (.ok bytes)).current = some s.nextId := by
  unfold generate
  rw [if_neg (by simp)]
  dsimp only
  rw [hcur]
  dsimp only
  rcases hdec : decodeAudioData bytes TTS_SAMPLE_RATE TTS_CHANNEL_COUNT
    with m | buf <;> simp only [hdec] <;> split <;> split <;>
    first
      | exact Or.inl (by trivial)
      | exact Or.inr (by trivial)

/-- C6: a completion callback mutates the transport state (playing flag,
current-voice reference) only when its own node is still the recorded
current one; in particular, after voice B supersedes voice A via a
generation, A's delayed ended event leaves the state B established
unchanged. -/
theorem C6_staleCallback :
    (∀ (s : AppState) (a : Nat), s.current ≠ some a →
      (fireEnded a s).isPlaying = s.isPlaying ∧
      (fireEnded a s).current = s.current) ∧
    (∀ (s : AppState) (a : Nat) (bytes : List Nat),
      s.current = some a → a < s.nextId →
      (fireEnded a (generate s true (.ok bytes))).isPlaying
        = (generate s true (.ok bytes)).isPlaying ∧
      (fireEnded a (generate s true (.ok bytes))).current
        = (generate s true (.ok bytes)).current) := by
  constructor
  · exact fun s a h => fireEnded_frozen s a h
  · intro s a bytes hcur hlt
    rcases generate_current_of_some s a bytes hcur with h0 | h0
    · exact fireEnded_frozen _ a (by rw [h0]; simp)
    · refine fireEnded_frozen _ a ?_
      rw [h0]
      intro hc
      exact absurd (Option.some.inj hc) (by omega)

/-- C7 (amended): after any event sequence at most one node that has not
finished naturally is connected to the output device (a naturally-ended
node is never explicitly disconnected, see the counterexample); and a
successful generation stops, disconnects and neutralises the handler of
the previously current node before the single fresh node starts playing
with the device running. -/
theorem C7_amended :
    (∀ ops : List Op, ((run ops).voices.countP activeConn) ≤ 1) ∧
    (∀ (s : AppState) (a : Nat) (bytes : List Nat) (buf : AudioBuffer),
      s.current = some a → a < s.nextId →
      decodeAudioData bytes TTS_SAMPLE_RATE TTS_CHANNEL_COUNT = .ok buf →
      (generate s true (.ok bytes)).current = some s.nextId ∧
      (generate s true (.ok bytes)).isPlaying = true ∧
      (generate s true (.ok bytes)).ctxSuspended = false ∧
      (generate s true (.ok bytes)).audioBuffer = some buf ∧
      (∀ v ∈ (generate s true (.ok bytes)).voices, v.vid = a →
        v.stopped = true ∧ v.connected = false ∧ v.onendedSet = false)) := by
  constructor
  · intro ops
    exact inv_countP _ (inv_run ops)
  · intro s a bytes buf hcur hlt hdec
    obtain ⟨e1, e2, e3, e4, _, _, e7⟩ := generate_ok_effects s a bytes buf hcur hlt hdec
    exact ⟨e1, e2, e3, e4, e7⟩

/-- C8 (amended): a collaborator failure or a decode failure surfaces
exactly one message and fully resets loading, playback, buffer, artifact
and current voice, and the system can generate again afterwards; a
validation failure (empty text) surfaces one message but leaves the
loading flag and any previously generated buffer, artifact and playing
voice untouched. -/
theorem C8_amended :
    (∀ (s : AppState) (msg : String),
      (generate s true (.error msg)).error = some msg ∧
      (generate s true (.error msg)).isLoading = false ∧
      (generate s true (.error msg)).isPlaying = false ∧
      (generate s true (.error msg)).audioUrl = none ∧
      (generate s true (.error msg)).audioBuffer = none ∧
      (generate s true (.error msg)).current = none) ∧
    (∀ (s : AppState) (bytes : List Nat) (msg : String),
      decodeAudioData bytes TTS_SAMPLE_RATE TTS_CHANNEL_COUNT = .error msg →
      (generate s true (.ok bytes)).error = some msg ∧
      (generate s true (.ok bytes)).isLoading = false ∧
      (generate s true (.ok bytes)).isPlaying = false ∧
      (generate s true (.ok bytes)).audioUrl = none ∧
      (generate s true (.ok bytes)).audioBuffer = none ∧
      (generate s true (.ok bytes)).current = none) ∧
    (∀ (s : AppState) (r : Except String (List Nat)),
      (generate s false r).error = some validationMsg ∧
      (generate s false r).isLoading = s.isLoading ∧
      (generate s false r).isPlaying = s.isPlaying ∧
      (generate s false r).audioUrl = s.audioUrl ∧
      (generate s false r).audioBuffer = s.audioBuffer ∧
      (generate s false r).current = s.current ∧
      (generate s false r).voices = s.voices) ∧
    (∀ (s : AppState) (msg : String) (bytes : List Nat) (buf : AudioBuffer),
      decodeAudioData bytes TTS_SAMPLE_RATE TTS_CHANNEL_COUNT = .ok buf →
      (generate (generate s true (.error msg)) true (.ok bytes)).isPlaying
        = true) :=
  ⟨generate_error_resets,
   fun s bytes msg h => generate_decodeError_resets s bytes msg h,
   generate_validation_keeps,
   fun s msg bytes buf h => generate_ok_playing _ bytes buf h⟩

/-- C9: the message carried by a failing speech-generation collaborator
call is stored verbatim — without prefix or rewording — as the user-facing
error. -/
theorem C9_verbatimMessage (s : AppState) (msg : String) :
    (generate s true (.error msg)).error = some msg :=
  (generate_error_resets s msg).1

section
attribute [local semireducible] Rat.mul Rat.inv Rat.add Rat.sub

/-- C1 counterexample: the claim asserts an exact round trip at code
32767, but encoding the sample 32767/32768 stores code 32766
(⌊32767 · 32767 / 32768⌋), so decoding yields 32766/32768 = 16383/16384,
not the original value. -/
theorem C1_counterexample :
    decodeAudioData ((audioBufferToWav boundaryBuf).drop 44) 24000 TTS_CHANNEL_COUNT
      = .ok ⟨1, 24000, [[(16383 : ℚ) / 16384]]⟩ ∧
    (16383 : ℚ) / 16384 ≠ (32767 : ℚ) / 32768 := by
  constructor
  · decide
  · decide

/-- C1 witness: a five-code buffer containing both boundary codes. -/
theorem C1_witness :
    (([-32768, -1, 0, 1, 32767] : List Int) ≠ [] ∧
      (∀ k ∈ ([-32768, -1, 0, 1, 32767] : List Int), -32768 ≤ k ∧ k ≤ 32767)) ∧
    (∃ b : AudioBuffer,
      decodeAudioData
        ((audioBufferToWav ⟨1, 24000,
          [([-32768, -1, 0, 1, 32767] : List Int).map
            fun k => ((k : Int) : ℚ) / 32768]⟩).drop 44)
        24000 TTS_CHANNEL_COUNT = .ok b ∧
      ∃ ch : List ℚ, b.channelData = [ch] ∧
        ch.length = ([-32768, -1, 0, 1, 32767] : List Int).length ∧
        ∀ i, i < ([-32768, -1, 0, 1, 32767] : List Int).length →
          |ch.getD i 0 - ((([-32768, -1, 0, 1, 32767] : List Int).getD i 0 : Int) : ℚ)
            / 32768| ≤ 1 / 32768 ∧
          (([-32768, -1, 0, 1, 32767] : List Int).getD i 0 ≤ 0 →
            ch.getD i 0 =
              ((([-32768, -1, 0, 1, 32767] : List Int).getD i 0 : Int) : ℚ) / 32768)) :=
  ⟨⟨by decide, by decide⟩,
    C1_roundTrip_amended 24000 [-32768, -1, 0, 1, 32767] (by decide) (by decide)⟩

/-- C6 witness: a stale ended event for the superseded first voice leaves
the state the second generation established unchanged. -/
theorem C6_witness :
    (initState.current ≠ some 0 ∧
      (fireEnded 0 initState).isPlaying = initState.isPlaying ∧
      (fireEnded 0 initState).current = initState.current) ∧
    ((generate initState true (Except.ok [1, 0])).current = some 0 ∧
      0 < (generate initState true (Except.ok [1, 0])).nextId ∧
      ((fireEnded 0 (generate (generate initState true (Except.ok [1, 0])) true
          (Except.ok [1, 0]))).isPlaying
        = (generate (generate initState true (Except.ok [1, 0])) true
            (Except.ok [1, 0])).isPlaying ∧
      (fireEnded 0 (generate (generate initState true (Except.ok [1, 0])) true
          (Except.ok [1, 0]))).current
        = (generate (generate initState true (Except.ok [1, 0])) true
            (Except.ok [1, 0])).current)) :=
  ⟨⟨by decide, C6_staleCallback.1 initState 0 (by decide)⟩,
   ⟨by decide, by decide,
     C6_staleCallback.2 (generate initState true (Except.ok [1, 0])) 0 [1, 0]
       (by decide) (by decide)⟩⟩

/-- C7 counterexample: generate, let the voice end naturally (its
`onended` clears the ref but never disconnects the node), then toggle to
restart: two nodes are now connected to the destination, refuting the
literal at-most-one-connected invariant. -/
theorem C7_counterexample :
    ((run [Op.gen true (.ok [1, 0]), Op.ended 0, Op.toggle]).voices.countP
      (fun v => v.connected)) = 2 := by
  decide

/-- C7 witness: a second generation supersedes the first voice. -/
theorem C7_witness :
    ((generate initState true (Except.ok [1, 0])).current = some 0 ∧
      0 < (generate initState true (Except.ok [1, 0])).nextId ∧
      decodeAudioData [2, 0] TTS_SAMPLE_RATE TTS_CHANNEL_COUNT
        = .ok ⟨1, 24000, [[(1 : ℚ) / 16384]]⟩) ∧
    ((generate (generate initState true (Except.ok [1, 0])) true
        (Except.ok [2, 0])).current
      = some (generate initState true (Except.ok [1, 0])).nextId ∧
     (generate (generate initState true (Except.ok [1, 0])) true
        (Except.ok [2, 0])).isPlaying = true ∧
     (generate (generate initState true (Except.ok [1, 0])) true
        (Except.ok [2, 0])).ctxSuspended = false ∧
     (generate (generate initState true (Except.ok [1, 0])) true
        (Except.ok [2, 0])).audioBuffer = some ⟨1, 24000, [[(1 : ℚ) / 16384]]⟩ ∧
     (∀ v ∈ (generate (generate initState true (Except.ok [1, 0])) true
        (Except.ok [2, 0])).voices, v.vid = 0 →
        v.stopped = true ∧ v.connected = false ∧ v.onendedSet = false)) :=
  ⟨⟨by decide, by decide, by decide⟩,
   C7_amended.2 (generate initState true (Except.ok [1, 0])) 0 [2, 0]
     ⟨1, 24000, [[(1 : ℚ) / 16384]]⟩ (by decide) (by decide) (by decide)⟩

/-- C8 counterexample: an empty-text validation failure after a
successful generation surfaces its message but leaves the previous
artifact, buffer, playing flag and active voice fully intact — no reset
happens on this failure path. -/
theorem C8_counterexample :
    (generate (generate initState true (Except.ok [1, 0])) false
      (Except.ok [])).isPlaying = true ∧
    (generate (generate initState true (Except.ok [1, 0])) false
      (Except.ok [])).current = some 0 ∧
    ((generate (generate initState true (Except.ok [1, 0])) false
      (Except.ok [])).audioUrl).isSome = true ∧
    (generate (generate initState true (Except.ok [1, 0])) false
      (Except.ok [])).error = some validationMsg := by
  refine ⟨by decide, by decide, by decide, by decide⟩

/-- C8 witness: a decode failure (odd byte length) fully resets, and a
generation after a collaborator failure plays again. -/
theorem C8_witness :
    (decodeAudioData [1] TTS_SAMPLE_RATE TTS_CHANNEL_COUNT
        = .error int16ByteLengthError ∧
      ((generate initState true (Except.ok [1])).error = some int16ByteLengthError ∧
       (generate initState true (Except.ok [1])).isLoading = false ∧
       (generate initState true (Except.ok [1])).isPlaying = false ∧
       (generate initState true (Except.ok [1])).audioUrl = none ∧
       (generate initState true (Except.ok [1])).audioBuffer = none ∧
       (generate initState true (Except.ok [1])).current = none)) ∧
    (decodeAudioData [1, 0] TTS_SAMPLE_RATE TTS_CHANNEL_COUNT
        = .ok ⟨1, 24000, [[(1 : ℚ) / 32768]]⟩ ∧
      (generate (generate initState true (Except.error "network failure")) true
        (Except.ok [1, 0])).isPlaying = true) :=
  ⟨⟨by decide, C8_amended.2.1 initState [1] int16ByteLengthError (by decide)⟩,
   ⟨by decide, C8_amended.2.2.2 initState "network failure" [1, 0]
      ⟨1, 24000, [[(1 : ℚ) / 32768]]⟩ (by decide)⟩⟩

end

end GeminiTTS
